import Mathlib

/-!
Verification of the gaze smoothing and screen mapping pipeline of the
AdHawk SDK examples (screen_tracking_example.py and camera_gaze_example.py).

The state and operations below are shallow embeddings of the Python code:
floats carried by the gaze stream are modelled as `PyFloat` (either NaN or
an exact rational value), the deque of mapped points as a Lean list with
the oldest point at the head, and the Python builtin `round` (round half to even) as
`pyRound` on rationals.
-/

namespace AdhawkExamples

/-- A Python float as it appears on the gaze streams: either NaN
(no valid gaze estimate) or an exact numeric value. -/
inductive PyFloat where
  | nan : PyFloat
  | val : ℚ → PyFloat
  deriving DecidableEq

/-- Embedding of `math.isnan`. -/
def PyFloat.isnan : PyFloat → Bool
  | .nan => true
  | .val _ => false

/-- Numeric value of a non-NaN `PyFloat` (junk value 0 on NaN; every use
is guarded by an `isnan` check, as in the Python code). -/
def PyFloat.toRat : PyFloat → ℚ
  | .nan => 0
  | .val q => q

/-- Embedding of the Python builtin `round`: round half to even. -/
def pyRound (q : ℚ) : ℤ :=
  if q - q.floor < 1 / 2 then q.floor
  else if (1 : ℚ) / 2 < q - q.floor then q.floor + 1
  else if Even q.floor then q.floor else q.floor + 1

namespace ScreenTracking

/-- Constant `GAZE_MARKER_SIZE = 20` (screen_tracking_example.py, module level). -/
def GAZE_MARKER_SIZE : ℚ := 20

/-- Constant `TrackingWindow.NUM_POINTS = 10` (line 151): sliding-window capacity. -/
def NUM_POINTS : Nat := 10

/-- The mutable state of `TrackingWindow` relevant to the smoothing
pipeline: the surface pixel extent (`self._width`, `self._height`), the
deque of recent mapped points (`self._point_deque`, oldest at the head),
the incremental running sums (`self._running_xcoord`, `self._running_ycoord`,
Python ints), and the stored smoothed position (`self._xcoord`,
`self._ycoord`, Python floats from a true division). -/
structure TrackingWindow where
  width : ℤ
  height : ℤ
  point_deque : List (ℤ × ℤ)
  running_xcoord : ℤ
  running_ycoord : ℤ
  xcoord : ℚ
  ycoord : ℚ
  deriving DecidableEq

/-- Method `TrackingWindow.__init__` (lines 180, 230-234): empty deque, running
sums 0, stored coordinates 0, for a surface of the given pixel extent. -/
def initTrackingWindow (w h : ℤ) : TrackingWindow :=
  { width := w, height := h, point_deque := [],
    running_xcoord := 0, running_ycoord := 0, xcoord := 0, ycoord := 0 }

/-- Lines 257-270 of `_handle_gaze_in_screen_stream`: append the new
mapped point, pop the oldest if the deque now exceeds `NUM_POINTS`
(`old` defaults to `(0, 0)` when nothing is popped), update the running
sums incrementally, and store the average over the current length. -/
def pushPoint (s : TrackingWindow) (newX newY : ℤ) : TrackingWindow :=
  let dq0 := s.point_deque ++ [(newX, newY)]
  let popped : (ℤ × ℤ) × List (ℤ × ℤ) :=
    if NUM_POINTS < dq0.length then (dq0.headD (0, 0), dq0.tail)
    else ((0, 0), dq0)
  let old := popped.1
  let dq := popped.2
  let rx := s.running_xcoord + newX - old.1
  let ry := s.running_ycoord + newY - old.2
  { s with point_deque := dq,
           running_xcoord := rx, running_ycoord := ry,
           xcoord := (rx : ℚ) / (dq.length : ℚ),
           ycoord := (ry : ℚ) / (dq.length : ℚ) }

/-- Method `TrackingWindow._handle_gaze_in_screen_stream` (lines 248-270): drop
the sample if either coordinate is NaN, otherwise map it to pixel
coordinates with `round(width * xpos)`, `round(height * ypos)` and push
the mapped point into the window. -/
def handleGazeInScreenStream (s : TrackingWindow)
    (_timestamp xpos ypos : PyFloat) : TrackingWindow :=
  if xpos.isnan || ypos.isnan then s
  else
    pushPoint s (pyRound ((s.width : ℚ) * xpos.toRat))
      (pyRound ((s.height : ℚ) * ypos.toRat))

/-- One `drawEllipse` request issued by the render step: the bounding
rectangle passed to `QtCore.QRectF`. -/
structure DrawRequest where
  rect_x : ℚ
  rect_y : ℚ
  rect_w : ℚ
  rect_h : ℚ
  deriving DecidableEq

/-- Method `TrackingWindow._every_frame` (lines 272-286): copies the base
pixmap and unconditionally draws one ellipse whose bounding rectangle is
`(xcoord - GAZE_MARKER_SIZE/2, ycoord - GAZE_MARKER_SIZE/2,
GAZE_MARKER_SIZE, GAZE_MARKER_SIZE)`; the smoother state is not touched.
The result is the (unchanged) state together with the list of draw
requests issued during the frame. -/
def everyFrame (s : TrackingWindow) : TrackingWindow × List DrawRequest :=
  (s, [{ rect_x := s.xcoord - GAZE_MARKER_SIZE / 2,
         rect_y := s.ycoord - GAZE_MARKER_SIZE / 2,
         rect_w := GAZE_MARKER_SIZE, rect_h := GAZE_MARKER_SIZE }])

/-- Processing of a whole stream of `(timestamp, xpos, ypos)` samples,
in arrival order, starting from the freshly initialized window. -/
def processSamples (w h : ℤ)
    (samples : List (PyFloat × PyFloat × PyFloat)) : TrackingWindow :=
  samples.foldl (fun st p => handleGazeInScreenStream st p.1 p.2.1 p.2.2)
    (initTrackingWindow w h)

/-- Pushing a list of already-mapped points into the window, oldest
first. -/
def pushAll (s : TrackingWindow) (pts : List (ℤ × ℤ)) : TrackingWindow :=
  pts.foldl (fun st p => pushPoint st p.1 p.2) s

end ScreenTracking

namespace CameraGaze

/-- Constant `MARKER_SIZE = 20` (camera_gaze_example.py, module level). -/
def MARKER_SIZE : ℚ := 20

/-- The mutable state of `GazeViewer` relevant to gaze handling: the
stored gaze coordinates (`self._gaze_coordinates`), each a Python float
that may be NaN. -/
structure GazeViewer where
  gaze_coordinates : PyFloat × PyFloat
  deriving DecidableEq

/-- Method `GazeViewer.__init__` (line 138): coordinates initialized to the
dummy value `(0, 0)`. -/
def initGazeViewer : GazeViewer := { gaze_coordinates := (.val 0, .val 0) }

/-- Method `GazeViewer._handle_gaze_in_image_stream` (lines 181-185):
unconditionally overwrites the stored coordinates with the received
sample, NaN included. -/
def handleGazeInImageStream (s : GazeViewer)
    (_timestamp gazeImgX gazeImgY : PyFloat) : GazeViewer :=
  { s with gaze_coordinates := (gazeImgX, gazeImgY) }

/-- One ellipse painted onto a frame image: the bounding rectangle
passed to `drawEllipse`. A frame image is modelled as the list of
ellipses painted on it. -/
structure EllipseOp where
  rect_x : ℚ
  rect_y : ℚ
  rect_w : ℚ
  rect_h : ℚ
  deriving DecidableEq

/-- Method `GazeViewer._draw_gaze_marker` (lines 187-198): if either stored
coordinate is NaN, return with the image unchanged; otherwise paint one
ellipse centred on the stored coordinates. -/
def drawGazeMarker (s : GazeViewer) (img : List EllipseOp) : List EllipseOp :=
  if s.gaze_coordinates.1.isnan || s.gaze_coordinates.2.isnan then img
  else
    img ++ [{ rect_x := s.gaze_coordinates.1.toRat - MARKER_SIZE / 2,
              rect_y := s.gaze_coordinates.2.toRat - MARKER_SIZE / 2,
              rect_w := MARKER_SIZE, rect_h := MARKER_SIZE }]

end CameraGaze

end AdhawkExamples

namespace AdhawkExamples

open ScreenTracking

theorem ratFloor_eq_intFloor (q : ℚ) : q.floor = ⌊q⌋ := by
  rw [Rat.floor_def', Rat.floor_def]

theorem pyRound_intCast (n : ℤ) : pyRound ((n : ℤ) : ℚ) = n := by
  have h : ((n : ℚ)).floor = n := by
    rw [ratFloor_eq_intFloor]; exact Int.floor_intCast n
  unfold pyRound
  rw [h]
  norm_num

/-- The incremental running sums agree with the exact component-wise sums
of the points retained in the deque. -/
def SumInv (s : TrackingWindow) : Prop :=
  s.running_xcoord = (s.point_deque.map Prod.fst).sum ∧
  s.running_ycoord = (s.point_deque.map Prod.snd).sum

/-- The deque never holds more than `NUM_POINTS` points. -/
def LenInv (s : TrackingWindow) : Prop :=
  s.point_deque.length ≤ NUM_POINTS

/-- On a non-empty window, the stored smoothed position is the running
sum divided by the current window length. -/
def AvgInv (s : TrackingWindow) : Prop :=
  s.point_deque ≠ [] →
    s.xcoord = (s.running_xcoord : ℚ) / (s.point_deque.length : ℚ) ∧
    s.ycoord = (s.running_ycoord : ℚ) / (s.point_deque.length : ℚ)

/-- All reachable-state invariants of the smoother together. -/
def Inv (s : TrackingWindow) : Prop := SumInv s ∧ LenInv s ∧ AvgInv s

theorem inv_init (w h : ℤ) : Inv (initTrackingWindow w h) := by
  refine ⟨⟨rfl, rfl⟩, by simp [initTrackingWindow, LenInv], fun hne => absurd rfl hne⟩

theorem pushPoint_inv (s : TrackingWindow) (nx ny : ℤ) (h : Inv s) :
    Inv (pushPoint s nx ny) := by
  obtain ⟨w, ht, dq, rx, ry, xc, yc⟩ := s
  simp only [Inv, SumInv, LenInv, AvgInv] at h ⊢
  obtain ⟨⟨hsx, hsy⟩, hlen, _⟩ := h
  simp only [pushPoint]
  by_cases hc : NUM_POINTS < (dq ++ [(nx, ny)]).length
  · have hne : dq ≠ [] := by
      intro e
      rw [e] at hc
      simp [NUM_POINTS] at hc
    obtain ⟨a, l, rfl⟩ := List.exists_cons_of_ne_nil hne
    rw [if_pos hc]
    refine ⟨⟨?_, ?_⟩, ?_, ?_⟩
    · simp only [List.cons_append, List.headD_cons, List.tail_cons]
      simp only [List.map_cons, List.sum_cons] at hsx
      simp [hsx, List.map_append, List.sum_append]
      ring
    · simp only [List.cons_append, List.headD_cons, List.tail_cons]
      simp only [List.map_cons, List.sum_cons] at hsy
      simp [hsy, List.map_append, List.sum_append]
      ring
    · simp only [List.cons_append, List.tail_cons]
      simp [NUM_POINTS] at hlen ⊢
      omega
    · simp
  · rw [if_neg hc]
    refine ⟨⟨?_, ?_⟩, ?_, ?_⟩
    · simp [hsx, List.map_append, List.sum_append]
    · simp [hsy, List.map_append, List.sum_append]
    · simp [NUM_POINTS] at hc ⊢
      omega
    · simp

theorem handleGaze_inv (s : TrackingWindow) (t x y : PyFloat) (h : Inv s) :
    Inv (handleGazeInScreenStream s t x y) := by
  unfold handleGazeInScreenStream
  by_cases hc : (x.isnan || y.isnan) = true
  · rw [if_pos hc]; exact h
  · rw [if_neg hc]; exact pushPoint_inv _ _ _ h

theorem foldl_gaze_inv (samples : List (PyFloat × PyFloat × PyFloat))
    (s : TrackingWindow) (h : Inv s) :
    Inv (samples.foldl
      (fun st p => handleGazeInScreenStream st p.1 p.2.1 p.2.2) s) := by
  induction samples generalizing s with
  | nil => exact h
  | cons p rest ih => exact ih _ (handleGaze_inv _ _ _ _ h)

theorem processSamples_inv (w h : ℤ)
    (samples : List (PyFloat × PyFloat × PyFloat)) :
    Inv (processSamples w h samples) :=
  foldl_gaze_inv samples _ (inv_init w h)

theorem pushAll_inv (s : TrackingWindow) (pts : List (ℤ × ℤ)) (h : Inv s) :
    Inv (pushAll s pts) := by
  unfold pushAll
  induction pts generalizing s with
  | nil => exact h
  | cons p rest ih => exact ih _ (pushPoint_inv _ _ _ h)

theorem pushPoint_deque_ne_nil (s : TrackingWindow) (nx ny : ℤ) :
    (pushPoint s nx ny).point_deque ≠ [] := by
  obtain ⟨w, ht, dq, rx, ry, xc, yc⟩ := s
  simp only [pushPoint]
  by_cases hc : NUM_POINTS < (dq ++ [(nx, ny)]).length
  · rw [if_pos hc]
    apply List.ne_nil_of_length_pos
    rw [List.length_tail]
    simp [NUM_POINTS] at hc ⊢
    omega
  · rw [if_neg hc]
    simp

theorem tail_append_of_ne_nil {α : Type} (l m : List α) (h : l ≠ []) :
    (l ++ m).tail = l.tail ++ m := by
  obtain ⟨a, t, rfl⟩ := List.exists_cons_of_ne_nil h
  simp

/-- A stream of twelve valid samples, used to exercise eviction. -/
def twelveSamples : List (PyFloat × PyFloat × PyFloat) :=
  (List.range 12).map (fun k => (.val 0, .val (k : ℚ), .val (k : ℚ)))

/-- A single valid sample at the centre of the surface. -/
def oneSample : List (PyFloat × PyFloat × PyFloat) :=
  [(.val 0, .val (1 / 2), .val (1 / 2))]

/-- Ten mapped points, enough to fill the window to capacity. -/
def tenPoints : List (ℤ × ℤ) :=
  [(1, 1), (2, 2), (3, 3), (4, 4), (5, 5),
   (6, 6), (7, 7), (8, 8), (9, 9), (10, 10)]

/-- A window state filled exactly to capacity. -/
def fullWindow : TrackingWindow :=
  pushAll (initTrackingWindow 1920 1080) tenPoints

/-- Claim C1: for every stream of valid (non-NaN) gaze samples, after each
push the running x and y sums equal the exact component-wise sums of the
points currently retained in the window, including after eviction. -/
theorem running_sum_eq_window_sum (w h : ℤ)
    (samples : List (PyFloat × PyFloat × PyFloat))
    (_hvalid : ∀ p ∈ samples, p.2.1.isnan = false ∧ p.2.2.isnan = false) :
    (processSamples w h samples).running_xcoord =
      ((processSamples w h samples).point_deque.map Prod.fst).sum ∧
    (processSamples w h samples).running_ycoord =
      ((processSamples w h samples).point_deque.map Prod.snd).sum :=
  (processSamples_inv w h samples).1

theorem running_sum_eq_window_sum_witness :
    (∀ p ∈ twelveSamples, p.2.1.isnan = false ∧ p.2.2.isnan = false) ∧
    ((processSamples 1920 1080 twelveSamples).running_xcoord =
      ((processSamples 1920 1080 twelveSamples).point_deque.map Prod.fst).sum ∧
    (processSamples 1920 1080 twelveSamples).running_ycoord =
      ((processSamples 1920 1080 twelveSamples).point_deque.map Prod.snd).sum) :=
  ⟨by decide, running_sum_eq_window_sum 1920 1080 twelveSamples (by decide)⟩

/-- Claim C3: after each push the window length never exceeds
`NUM_POINTS`, and a push to a full window evicts exactly the oldest
element (FIFO) while a push to a non-full window evicts nothing. -/
theorem window_capacity_and_fifo :
    (∀ (w h : ℤ) (samples : List (PyFloat × PyFloat × PyFloat)),
        (processSamples w h samples).point_deque.length ≤ NUM_POINTS) ∧
    (∀ (s : TrackingWindow) (nx ny : ℤ),
        (s.point_deque.length = NUM_POINTS →
          (pushPoint s nx ny).point_deque = s.point_deque.tail ++ [(nx, ny)]) ∧
        (s.point_deque.length < NUM_POINTS →
          (pushPoint s nx ny).point_deque = s.point_deque ++ [(nx, ny)])) := by
  constructor
  · intro w h samples
    exact (processSamples_inv w h samples).2.1
  · intro s nx ny
    constructor
    · intro hfull
      have hne : s.point_deque ≠ [] := by
        intro e
        rw [e] at hfull
        simp [NUM_POINTS] at hfull
      simp only [pushPoint]
      rw [if_pos (by
        simp only [List.length_append, List.length_cons, List.length_nil, hfull, NUM_POINTS]
        omega)]
      simpa using tail_append_of_ne_nil _ _ hne
    · intro hlt
      simp only [pushPoint]
      rw [if_neg (by
        simp only [List.length_append, List.length_cons, List.length_nil, NUM_POINTS] at hlt ⊢
        omega)]

theorem window_capacity_and_fifo_witness :
    (processSamples 1920 1080 []).point_deque.length ≤ NUM_POINTS ∧
    fullWindow.point_deque.length = NUM_POINTS ∧
    (pushPoint fullWindow 13 13).point_deque =
      fullWindow.point_deque.tail ++ [(13, 13)] ∧
    (initTrackingWindow 1920 1080).point_deque.length < NUM_POINTS ∧
    (pushPoint (initTrackingWindow 1920 1080) 7 8).point_deque =
      (initTrackingWindow 1920 1080).point_deque ++ [(7, 8)] :=
  ⟨window_capacity_and_fifo.1 1920 1080 [],
   by decide,
   (window_capacity_and_fifo.2 fullWindow 13 13).1 (by decide),
   by decide,
   (window_capacity_and_fifo.2 (initTrackingWindow 1920 1080) 7 8).2 (by decide)⟩

/-- Claim C4: after processing any non-empty stream of valid samples, the
window is non-empty and the stored smoothed position equals the running
sum divided by the current window length (for both axes), which never
exceeds the capacity `NUM_POINTS` — never a division by the full
capacity and never with synthetic zero pre-fill. -/
theorem smoothed_is_mean_of_window (w h : ℤ)
    (samples : List (PyFloat × PyFloat × PyFloat)) (hne : samples ≠ [])
    (hvalid : ∀ p ∈ samples, p.2.1.isnan = false ∧ p.2.2.isnan = false) :
    (processSamples w h samples).point_deque ≠ [] ∧
    (processSamples w h samples).xcoord =
      ((processSamples w h samples).running_xcoord : ℚ) /
        ((processSamples w h samples).point_deque.length : ℚ) ∧
    (processSamples w h samples).ycoord =
      ((processSamples w h samples).running_ycoord : ℚ) /
        ((processSamples w h samples).point_deque.length : ℚ) ∧
    (processSamples w h samples).point_deque.length ≤ NUM_POINTS := by
  have hdne : (processSamples w h samples).point_deque ≠ [] := by
    obtain ⟨L, p, rfl⟩ := (List.eq_nil_or_concat' samples).resolve_left hne
    have hsplit : processSamples w h (L ++ [p]) =
        handleGazeInScreenStream (processSamples w h L) p.1 p.2.1 p.2.2 := by
      unfold processSamples
      rw [List.foldl_concat]
    rw [hsplit]
    have hv := hvalid p (by simp)
    unfold handleGazeInScreenStream
    rw [if_neg (by simp [hv.1, hv.2])]
    exact pushPoint_deque_ne_nil _ _ _
  obtain ⟨_, hlen, havg⟩ := processSamples_inv w h samples
  obtain ⟨hx, hy⟩ := havg hdne
  exact ⟨hdne, hx, hy, hlen⟩

theorem smoothed_is_mean_of_window_witness :
    oneSample ≠ [] ∧
    ((processSamples 1920 1080 oneSample).point_deque ≠ [] ∧
    (processSamples 1920 1080 oneSample).xcoord =
      ((processSamples 1920 1080 oneSample).running_xcoord : ℚ) /
        ((processSamples 1920 1080 oneSample).point_deque.length : ℚ) ∧
    (processSamples 1920 1080 oneSample).ycoord =
      ((processSamples 1920 1080 oneSample).running_ycoord : ℚ) /
        ((processSamples 1920 1080 oneSample).point_deque.length : ℚ) ∧
    (processSamples 1920 1080 oneSample).point_deque.length ≤ NUM_POINTS) :=
  ⟨by decide, smoothed_is_mean_of_window 1920 1080 oneSample (by decide) (by decide)⟩

/-- Claim C9: a firing of the render trigger leaves the smoother state
untouched: window contents, window length, both running sums and the
stored smoothed position are unchanged; only the draw output is
produced. -/
theorem render_preserves_smoother_state (s : TrackingWindow) :
    (everyFrame s).1.point_deque = s.point_deque ∧
    (everyFrame s).1.point_deque.length = s.point_deque.length ∧
    (everyFrame s).1.running_xcoord = s.running_xcoord ∧
    (everyFrame s).1.running_ycoord = s.running_ycoord ∧
    (everyFrame s).1.xcoord = s.xcoord ∧
    (everyFrame s).1.ycoord = s.ycoord :=
  ⟨rfl, rfl, rfl, rfl, rfl, rfl⟩

/-- Claim C10: in the camera gaze example the stream handler overwrites
the stored gaze coordinates unconditionally (NaN included), and the
marker-drawing routine is where NaN is filtered: with a NaN stored
coordinate it returns the frame image unchanged, so a marker is never
drawn at a NaN coordinate. -/
theorem camera_gaze_overwrite_and_draw_filter :
    (∀ (s : CameraGaze.GazeViewer) (t x y : PyFloat),
        (CameraGaze.handleGazeInImageStream s t x y).gaze_coordinates = (x, y)) ∧
    (∀ (s : CameraGaze.GazeViewer) (img : List CameraGaze.EllipseOp),
        s.gaze_coordinates.1.isnan = true ∨ s.gaze_coordinates.2.isnan = true →
        CameraGaze.drawGazeMarker s img = img) := by
  constructor
  · intro s t x y
    rfl
  · intro s img h
    unfold CameraGaze.drawGazeMarker
    rcases h with h | h <;> rw [if_pos (by simp [h])]

theorem handleGaze_val (s : TrackingWindow) (t : PyFloat) (x y : ℚ) :
    handleGazeInScreenStream s t (.val x) (.val y) =
      pushPoint s (pyRound ((s.width : ℚ) * x)) (pyRound ((s.height : ℚ) * y)) :=
  rfl

theorem pushPoint_getLast (s : TrackingWindow) (nx ny : ℤ) :
    (pushPoint s nx ny).point_deque.getLast? = some (nx, ny) := by
  obtain ⟨w, ht, dq, rx, ry, xc, yc⟩ := s
  simp only [pushPoint]
  by_cases hc : NUM_POINTS < (dq ++ [(nx, ny)]).length
  · rw [if_pos hc]
    have hne : dq ≠ [] := by
      intro e
      rw [e] at hc
      simp [NUM_POINTS] at hc
    show ((dq ++ [(nx, ny)]).tail).getLast? = some (nx, ny)
    rw [tail_append_of_ne_nil _ _ hne]
    exact List.getLast?_concat _
  · rw [if_neg hc]
    exact List.getLast?_concat _

/-- The concrete state after the single centred sample on a 1920×1080
surface: the sample maps to pixel point (960, 540). -/
theorem processSamples_oneSample :
    processSamples 1920 1080 oneSample =
      { width := 1920, height := 1080, point_deque := [(960, 540)],
        running_xcoord := 960, running_ycoord := 540,
        xcoord := 960, ycoord := 540 } := by
  show handleGazeInScreenStream (initTrackingWindow 1920 1080)
      (.val 0) (.val (1 / 2)) (.val (1 / 2)) = _
  rw [handleGaze_val]
  have hw : ((initTrackingWindow 1920 1080).width : ℚ) = ((1920 : ℤ) : ℚ) := rfl
  have hh : ((initTrackingWindow 1920 1080).height : ℚ) = ((1080 : ℤ) : ℚ) := rfl
  rw [hw, hh]
  have h1 : ((1920 : ℤ) : ℚ) * ((1 : ℚ) / 2) = ((960 : ℤ) : ℚ) := by norm_num
  have h2 : ((1080 : ℤ) : ℚ) * ((1 : ℚ) / 2) = ((540 : ℤ) : ℚ) := by norm_num
  rw [h1, h2, pyRound_intCast, pyRound_intCast]
  simp only [pushPoint, initTrackingWindow, NUM_POINTS]
  norm_num

/-- Claim C5: every valid sample is mapped by
`x_pixel = round(width * x_norm)`, `y_pixel = round(height * y_norm)` and
pushed into the window; on a 1920×1080 surface the sample (0.5, 0.5) maps
to the point (960, 540). -/
theorem mapper_round_formula :
    (∀ (s : TrackingWindow) (t : PyFloat) (x y : ℚ),
        handleGazeInScreenStream s t (.val x) (.val y) =
          pushPoint s (pyRound ((s.width : ℚ) * x))
            (pyRound ((s.height : ℚ) * y))) ∧
    (processSamples 1920 1080 oneSample).point_deque = [(960, 540)] := by
  refine ⟨fun s t x y => handleGaze_val s t x y, ?_⟩
  rw [processSamples_oneSample]

/-- Claim C6: a sample with a NaN coordinate is dropped with no state
change at all; concretely, after the centred sample on 1920×1080 (window
length 1, smoothed position (960, 540)), a NaN sample leaves the whole
state, in particular the smoothed position, unchanged. -/
theorem nan_sample_dropped :
    (∀ (s : TrackingWindow) (t x y : PyFloat),
        x.isnan = true ∨ y.isnan = true →
        handleGazeInScreenStream s t x y = s) ∧
    (handleGazeInScreenStream (processSamples 1920 1080 oneSample)
        (.val 1) .nan (.val 0) = processSamples 1920 1080 oneSample ∧
      (processSamples 1920 1080 oneSample).xcoord = 960 ∧
      (processSamples 1920 1080 oneSample).ycoord = 540 ∧
      (processSamples 1920 1080 oneSample).point_deque.length = 1) := by
  have hdrop : ∀ (s : TrackingWindow) (t x y : PyFloat),
      x.isnan = true ∨ y.isnan = true → handleGazeInScreenStream s t x y = s := by
    intro s t x y h
    unfold handleGazeInScreenStream
    rcases h with h | h <;> rw [if_pos (by simp [h])]
  refine ⟨hdrop, hdrop _ _ _ _ (Or.inl rfl), ?_, ?_, ?_⟩ <;>
    simp [processSamples_oneSample]

theorem nan_sample_dropped_witness :
    PyFloat.isnan .nan = true ∧
    handleGazeInScreenStream (initTrackingWindow 1920 1080) (.val 0) .nan
      (.val 0) = initTrackingWindow 1920 1080 :=
  ⟨rfl, nan_sample_dropped.1 (initTrackingWindow 1920 1080) (.val 0) .nan
    (.val 0) (Or.inl rfl)⟩

/-- Claim C8: out-of-range (but non-NaN) normalized coordinates are not
clamped: the sample goes through the same round formula, the mapped
point enters the window as its newest element, and no error occurs. -/
theorem no_clamping_out_of_range (s : TrackingWindow) (t : PyFloat)
    (x y : ℚ) (_hout : x < 0 ∨ 1 < x ∨ y < 0 ∨ 1 < y) :
    handleGazeInScreenStream s t (.val x) (.val y) =
      pushPoint s (pyRound ((s.width : ℚ) * x))
        (pyRound ((s.height : ℚ) * y)) ∧
    (handleGazeInScreenStream s t (.val x) (.val y)).point_deque.getLast? =
      some (pyRound ((s.width : ℚ) * x), pyRound ((s.height : ℚ) * y)) ∧
    (handleGazeInScreenStream s t (.val x) (.val y)).point_deque ≠ [] := by
  refine ⟨handleGaze_val s t x y, ?_, ?_⟩
  · rw [handleGaze_val]
    exact pushPoint_getLast _ _ _
  · rw [handleGaze_val]
    exact pushPoint_deque_ne_nil _ _ _

theorem no_clamping_out_of_range_witness :
    ((2 : ℚ) < 0 ∨ 1 < (2 : ℚ) ∨ (0 : ℚ) < 0 ∨ 1 < (0 : ℚ)) ∧
    (handleGazeInScreenStream (initTrackingWindow 1920 1080) (.val 0)
        (.val 2) (.val 0) =
      pushPoint (initTrackingWindow 1920 1080)
        (pyRound (((initTrackingWindow 1920 1080).width : ℚ) * 2))
        (pyRound (((initTrackingWindow 1920 1080).height : ℚ) * 0)) ∧
    (handleGazeInScreenStream (initTrackingWindow 1920 1080) (.val 0)
        (.val 2) (.val 0)).point_deque.getLast? =
      some (pyRound (((initTrackingWindow 1920 1080).width : ℚ) * 2),
        pyRound (((initTrackingWindow 1920 1080).height : ℚ) * 0)) ∧
    (handleGazeInScreenStream (initTrackingWindow 1920 1080) (.val 0)
        (.val 2) (.val 0)).point_deque ≠ []) :=
  ⟨by decide, no_clamping_out_of_range (initTrackingWindow 1920 1080)
    (.val 0) 2 0 (by decide)⟩

/-- Mapped points (1,1) through (12,12), pushed in order. -/
def twelvePoints : List (ℤ × ℤ) :=
  [(1, 1), (2, 2), (3, 3), (4, 4), (5, 5), (6, 6),
   (7, 7), (8, 8), (9, 9), (10, 10), (11, 11), (12, 12)]

/-- Claim C7: pushing (1,1) … (12,12) into a capacity-10 window evicts
(1,1) and then (2,2), in that order, leaving exactly the points 3..12,
and the smoothed position is (7.5, 7.5). -/
theorem twelve_pushes_boundary :
    (pushAll (initTrackingWindow 1920 1080) (twelvePoints.take 11)).point_deque =
      [(2, 2), (3, 3), (4, 4), (5, 5), (6, 6), (7, 7),
       (8, 8), (9, 9), (10, 10), (11, 11)] ∧
    (pushAll (initTrackingWindow 1920 1080) twelvePoints).point_deque =
      [(3, 3), (4, 4), (5, 5), (6, 6), (7, 7), (8, 8),
       (9, 9), (10, 10), (11, 11), (12, 12)] ∧
    (pushAll (initTrackingWindow 1920 1080) twelvePoints).xcoord = 15 / 2 ∧
    (pushAll (initTrackingWindow 1920 1080) twelvePoints).ycoord = 15 / 2 := by
  obtain ⟨⟨hsx, hsy⟩, hlen, havg⟩ :=
    pushAll_inv (initTrackingWindow 1920 1080) twelvePoints (inv_init 1920 1080)
  obtain ⟨hx, hy⟩ := havg (by decide)
  refine ⟨by decide, by decide, ?_, ?_⟩
  · rw [hx]
    have h1 : (pushAll (initTrackingWindow 1920 1080) twelvePoints).running_xcoord
        = 75 := by decide
    have h2 : (pushAll (initTrackingWindow 1920 1080)
        twelvePoints).point_deque.length = 10 := by decide
    rw [h1, h2]
    norm_num
  · rw [hy]
    have h1 : (pushAll (initTrackingWindow 1920 1080) twelvePoints).running_ycoord
        = 75 := by decide
    have h2 : (pushAll (initTrackingWindow 1920 1080)
        twelvePoints).point_deque.length = 10 := by decide
    rw [h1, h2]
    norm_num

/-- Claim C2 (counterexample): in the freshly initialized, reachable
state the window is empty, yet the render step still emits a draw
request, and that request is the marker rectangle centred at the origin
(0, 0) — refuting "a draw request is emitted only if the window is
non-empty" and "no default position at the origin is drawn". -/
theorem render_draws_on_empty_window :
    (initTrackingWindow 1920 1080).point_deque = [] ∧
    (everyFrame (initTrackingWindow 1920 1080)).2 ≠ [] ∧
    (everyFrame (initTrackingWindow 1920 1080)).2 =
      [{ rect_x := -10, rect_y := -10, rect_w := 20, rect_h := 20 }] := by
  refine ⟨rfl, by simp [everyFrame], ?_⟩
  simp [everyFrame, initTrackingWindow, GAZE_MARKER_SIZE, DrawRequest.mk.injEq]
  norm_num

/-- Claim C2 (amended): every firing of the render trigger emits exactly
one draw request, carrying the stored smoothed position, whether or not
the window is empty; in the initial (empty-window) state that stored
position is the origin (0, 0), so the marker is drawn at the origin. -/
theorem render_always_draws :
    (∀ s : TrackingWindow, (everyFrame s).2 =
        [{ rect_x := s.xcoord - GAZE_MARKER_SIZE / 2,
           rect_y := s.ycoord - GAZE_MARKER_SIZE / 2,
           rect_w := GAZE_MARKER_SIZE, rect_h := GAZE_MARKER_SIZE }]) ∧
    (∀ w h : ℤ, (initTrackingWindow w h).xcoord = 0 ∧
      (initTrackingWindow w h).ycoord = 0) :=
  ⟨fun _ => rfl, fun _ _ => ⟨rfl, rfl⟩⟩

theorem camera_gaze_overwrite_and_draw_filter_witness :
    CameraGaze.drawGazeMarker { gaze_coordinates := (.nan, .val 5) } [] = [] ∧
    (CameraGaze.handleGazeInImageStream CameraGaze.initGazeViewer
      (.val 0) .nan (.val 5)).gaze_coordinates = (.nan, .val 5) :=
  ⟨camera_gaze_overwrite_and_draw_filter.2 _ [] (Or.inl rfl),
   camera_gaze_overwrite_and_draw_filter.1 _ _ _ _⟩

end AdhawkExamples
